import Mathlib

/-!
Verification development for the workflows-and-agents repository.

The repository wires several LangGraph workflows (customer-support routing,
prompt chaining, parallelization, orchestrator-workers, evaluator-optimizer,
a tool-calling agent) behind NestJS gateways.  The language-model calls are
external collaborators: each model response is an input (an "oracle") to the
embedded functions.  The graph execution engine itself lives in the external
`@langchain/langgraph` package, so engine-level definitions below are modelled
from the specification (sections 4.2, 4.3 and 5) and carry doc comments
saying so; everything else is translated directly from the TypeScript source.
-/

/- ===================================================================
   Customer-support chatbot — customer-support-chatbot.service.ts
   =================================================================== -/

inductive Role
  | system
  | user
  | assistant
  | tool
deriving DecidableEq, Repr

structure Message where
  role : Role
  content : String
deriving DecidableEq, Repr

/-- JavaScript values as produced by `JSON.parse`.  `JSON.parse` itself is a
platform primitive (external to the repository); a stage receives either
`none` — the parse threw a `SyntaxError` on malformed input — or `some j`,
the parsed value.  Parsed objects carry their fields as an association list
(keys unique, as in a parsed JS object). -/
inductive JsonValue
  | null
  | bool (b : Bool)
  | num (n : Int)
  | str (s : String)
  | obj (fields : List (String × JsonValue))

/-- The runtime errors a classification stage can raise: `JSON.parse`
throwing a `SyntaxError` on malformed input, and the unguarded property
access `categorizationOutput.nextRepresentative` throwing a `TypeError`
when the parse produced `null`.  Neither is a distinct
`ClassificationDecodeError` — no such error exists in the code. -/
inductive StageError
  | jsonParseError
  | typeError
deriving DecidableEq, Repr

/-- JS property access `j.k` on a parsed value: accessing a property of
`null` throws a `TypeError` (the source uses plain access, no optional
chaining); on any other non-object value it is `undefined`; on an object
it is the field's value or `undefined`. -/
def jsField (j : JsonValue) (k : String) : Except StageError (Option JsonValue) :=
  match j with
  | .null => .error .typeError
  | .obj fields => .ok (fields.lookup k)
  | _ => .ok none

/-- JS property access narrowed to string values.  A missing field
(`undefined`), a `null` field and a non-string field all compare unequal
to every string literal downstream, so all are collapsed to `none`. -/
def jsGetString (j : JsonValue) (k : String) : Except StageError (Option String) :=
  match jsField j k with
  | .error e => .error e
  | .ok (some (.str s)) => .ok (some s)
  | .ok _ => .ok none

/-- The `StateAnnotation` of the customer-support service:
`MessagesAnnotation` (append-reducer message list), `nextRepresentative`
(plain last-value channel; `none` models `undefined`/`null`, and the code
never validates the decoded value so it is an arbitrary string, not an
enum), `refundAuthorized` (plain last-value boolean channel). -/
structure SupportState where
  messages : List Message
  nextRepresentative : Option String
  refundAuthorized : Bool
deriving DecidableEq, Repr

/-- A partial state update returned by a stage.  An unwritten channel is
`none`; `nextRepresentative := some v` models the stage writing `v`
(where `v = none` is JS `undefined`). -/
structure SupportDelta where
  messages : List Message := []
  nextRepresentative : Option (Option String) := none
  refundAuthorized : Option Bool := none
deriving DecidableEq, Repr

/-- Merge a stage's partial update into the running state, per channel
policy: `messages` appends (MessagesAnnotation reducer), the other two
channels are last-value (replace). -/
def applyDelta (s : SupportState) (d : SupportDelta) : SupportState where
  messages := s.messages ++ d.messages
  nextRepresentative :=
    match d.nextRepresentative with
    | some v => v
    | none => s.nextRepresentative
  refundAuthorized :=
    match d.refundAuthorized with
    | some b => b
    | none => s.refundAuthorized

/-- `initialSupport` stage.  `supportResponse` and the categorization
response are model outputs (external); `categorizationParse` is the
result of `JSON.parse` on the categorization response content.  The code
reads `categorizationOutput.nextRepresentative` with no schema check: on
a parsed `null` that plain property access throws a `TypeError`; on a
parsed object lacking the field it yields `undefined`, which is written
to the state unmodified. -/
def initialSupport (state : SupportState) (supportResponse : Message)
    (categorizationParse : Option JsonValue) : Except StageError SupportDelta :=
  match state, categorizationParse with
  | _, none => .error .jsonParseError
  | _, some out =>
      match jsGetString out "nextRepresentative" with
      | .error e => .error e
      | .ok v =>
          .ok { messages := [supportResponse], nextRepresentative := some v }

/-- `billingSupport` stage; same raw `JSON.parse` + unchecked field read,
with the same `TypeError` on a parsed `null`.  (The history trimming only
shapes the model prompt, which is external.) -/
def billingSupport (state : SupportState) (billingRepResponse : Message)
    (categorizationParse : Option JsonValue) : Except StageError SupportDelta :=
  match state, categorizationParse with
  | _, none => .error .jsonParseError
  | _, some out =>
      match jsGetString out "nextRepresentative" with
      | .error e => .error e
      | .ok v =>
          .ok { messages := [billingRepResponse], nextRepresentative := some v }

/-- `technicalSupport` stage: appends the model response, writes nothing
else. -/
def technicalSupport (state : SupportState) (response : Message) : SupportDelta :=
  match state with
  | _ => { messages := [response] }

def refundProcessedMessage : Message :=
  { role := .assistant, content := "Refund processed!" }

def refundDelta : SupportDelta := { messages := [refundProcessedMessage] }

/-- Outcome of invoking one stage function. -/
inductive StageStep
  | delta (d : SupportDelta)
  | interrupt (reason : String)
  | failure (e : StageError)
deriving DecidableEq, Repr

/-- `handleRefund` stage: throws `NodeInterrupt` unless `refundAuthorized`,
otherwise appends the single assistant message `"Refund processed!"`. -/
def handleRefund (state : SupportState) : StageStep :=
  if !state.refundAuthorized then
    .interrupt "Human authorization required."
  else
    .delta refundDelta

/-- The conditional router attached to `initial_support` (the `switch` on
`state.nextRepresentative` with a `default` arm). -/
def initialSupportRouter (state : SupportState) : String :=
  if state.nextRepresentative = some "BILLING" then "billing"
  else if state.nextRepresentative = some "TECHNICAL" then "technical"
  else "conversational"

/-- Edge-mapping table of the conditional edge out of `initial_support`. -/
def initialSupportEdges : List (String × String) :=
  [("billing", "billing_support"), ("technical", "technical_support"),
   ("conversational", "__end__")]

/-- The conditional router attached to `billing_support`. -/
def billingSupportRouter (state : SupportState) : String :=
  if state.nextRepresentative = some "REFUND" then "refund" else "end"

/-- Edge-mapping table of the conditional edge out of `billing_support`. -/
def billingSupportEdges : List (String × String) :=
  [("refund", "handle_refund"), ("end", "__end__")]

inductive SupportNode
  | initial_support
  | billing_support
  | technical_support
  | handle_refund
deriving DecidableEq, Repr

inductive SupportTarget
  | node (n : SupportNode)
  | terminal
deriving DecidableEq, Repr

def supportNodeOfName (name : String) : Option SupportNode :=
  if name = "initial_support" then some .initial_support
  else if name = "billing_support" then some .billing_support
  else if name = "technical_support" then some .technical_support
  else if name = "handle_refund" then some .handle_refund
  else none

inductive SupportRunError
  | routing (key : String)
  | stage (e : StageError)
deriving DecidableEq, Repr

/-- Modelled from the spec: step 7 of the execution engine (§4.2), which is
implemented by the external langgraph library and absent from src/ — the
router's return value is looked up in the edge-mapping table; `__end__`
denotes the terminal marker and an unmapped key is a `RoutingError`. -/
def lookupTarget (edges : List (String × String)) (key : String) :
    Except SupportRunError SupportTarget :=
  match edges.lookup key with
  | none => .error (.routing key)
  | some name =>
      if name = "__end__" then .ok .terminal
      else
        match supportNodeOfName name with
        | some n => .ok (.node n)
        | none => .error (.routing name)

/-- Edge resolution after each node of the customer-support graph, exactly
as declared by `addEdge`/`addConditionalEdges` in `graph()`. -/
def routeAfter : SupportNode → SupportState → Except SupportRunError SupportTarget
  | .initial_support, s => lookupTarget initialSupportEdges (initialSupportRouter s)
  | .billing_support, s => lookupTarget billingSupportEdges (billingSupportRouter s)
  | .technical_support, _ => .ok .terminal
  | .handle_refund, _ => .ok .terminal

/-- The model responses a single run can consume (the model is an external
collaborator; each node of this acyclic graph calls it at most once per
run). `initialParse`/`billingParse` are the `JSON.parse` results of the
categorization responses. -/
structure SupportOracle where
  initialResp : Message
  initialParse : Option JsonValue
  billingResp : Message
  billingParse : Option JsonValue
  technicalResp : Message

/-- Invoke one node's stage function on the current state. -/
def runSupportNode (o : SupportOracle) : SupportNode → SupportState → StageStep
  | .initial_support, s =>
      match initialSupport s o.initialResp o.initialParse with
      | .ok d => .delta d
      | .error e => .failure e
  | .billing_support, s =>
      match billingSupport s o.billingResp o.billingParse with
      | .ok d => .delta d
      | .error e => .failure e
  | .technical_support, s => .delta (technicalSupport s o.technicalResp)
  | .handle_refund, s => handleRefund s

inductive SupportOutcome
  | completed (final : SupportState)
  | interrupted (pending : SupportNode) (state : SupportState)
  | failed (e : SupportRunError) (state : SupportState)
  | outOfFuel (pending : SupportNode) (state : SupportState)
deriving DecidableEq, Repr

def SupportOutcome.isOutOfFuel : SupportOutcome → Bool
  | .outOfFuel _ _ => true
  | _ => false

structure SupportRun where
  outcome : SupportOutcome
  trace : List (SupportNode × SupportDelta)
deriving DecidableEq, Repr

/-- Nodes that completed during the run, in execution order. -/
def SupportRun.visited (r : SupportRun) : List SupportNode := r.trace.map Prod.fst

/-- Modelled from the spec: the execution engine of §4.2 (provided by the
external langgraph library, absent from src/).  Invoke the current node;
on an interrupt stop without advancing (§4.2 step 8, state unchanged by
that stage); on a stage failure surface it with the state unchanged; on a
delta, merge per channel policy, record the StageResult, and follow the
resolved edge.  `fuel` bounds the loop so the function is total; a run
that exhausts fuel is reported as `outOfFuel`. -/
def runFrom (o : SupportOracle) : Nat → SupportNode → SupportState → SupportRun
  | 0, cur, s => ⟨.outOfFuel cur s, []⟩
  | fuel + 1, cur, s =>
      match runSupportNode o cur s with
      | .interrupt _ => ⟨.interrupted cur s, []⟩
      | .failure e => ⟨.failed (.stage e) s, []⟩
      | .delta d =>
          let s' := applyDelta s d
          match routeAfter cur s' with
          | .error e => ⟨.failed e s', [(cur, d)]⟩
          | .ok .terminal => ⟨.completed s', [(cur, d)]⟩
          | .ok (.node next) =>
              let r := runFrom o fuel next s'
              ⟨r.outcome, (cur, d) :: r.trace⟩

/- ========== helper lemmas about routing ========== -/

theorem routeAfter_initial (s : SupportState) :
    routeAfter .initial_support s =
      .ok (if s.nextRepresentative = some "BILLING" then SupportTarget.node .billing_support
        else if s.nextRepresentative = some "TECHNICAL" then SupportTarget.node .technical_support
        else SupportTarget.terminal) := by
  by_cases h1 : s.nextRepresentative = some "BILLING"
  · simp [routeAfter, initialSupportRouter, h1]
    rfl
  · by_cases h2 : s.nextRepresentative = some "TECHNICAL"
    · simp [routeAfter, initialSupportRouter, h1, h2]
      rfl
    · simp [routeAfter, initialSupportRouter, h1, h2]
      rfl

theorem routeAfter_billing (s : SupportState) :
    routeAfter .billing_support s =
      .ok (if s.nextRepresentative = some "REFUND" then SupportTarget.node .handle_refund
        else SupportTarget.terminal) := by
  by_cases h : s.nextRepresentative = some "REFUND"
  · simp [routeAfter, billingSupportRouter, h]
    rfl
  · simp [routeAfter, billingSupportRouter, h]
    rfl

/- ========== C4 ========== -/

/-- C4: routing of the customer-support graph — after `initial_support`
the next stage is `billing_support` exactly when `nextRepresentative =
"BILLING"`, `technical_support` exactly when it is `"TECHNICAL"`, and the
terminal marker for every other value; after `billing_support` the next
stage is `handle_refund` exactly when it is `"REFUND"` and terminal
otherwise; `technical_support` and `handle_refund` always advance to the
terminal marker. -/
theorem c4_support_routing (s : SupportState) :
    (routeAfter .initial_support s =
      .ok (if s.nextRepresentative = some "BILLING" then SupportTarget.node .billing_support
        else if s.nextRepresentative = some "TECHNICAL" then SupportTarget.node .technical_support
        else SupportTarget.terminal)) ∧
    (routeAfter .initial_support s = .ok (.node .billing_support) ↔
      s.nextRepresentative = some "BILLING") ∧
    (routeAfter .initial_support s = .ok (.node .technical_support) ↔
      s.nextRepresentative = some "TECHNICAL") ∧
    (routeAfter .billing_support s =
      .ok (if s.nextRepresentative = some "REFUND" then SupportTarget.node .handle_refund
        else SupportTarget.terminal)) ∧
    (routeAfter .billing_support s = .ok (.node .handle_refund) ↔
      s.nextRepresentative = some "REFUND") ∧
    routeAfter .technical_support s = .ok .terminal ∧
    routeAfter .handle_refund s = .ok .terminal := by
  refine ⟨routeAfter_initial s, ?_, ?_, routeAfter_billing s, ?_, rfl, rfl⟩
  · rw [routeAfter_initial]
    by_cases h1 : s.nextRepresentative = some "BILLING"
    · simp [h1]
    · by_cases h2 : s.nextRepresentative = some "TECHNICAL" <;> simp [h1, h2]
  · rw [routeAfter_initial]
    by_cases h1 : s.nextRepresentative = some "BILLING"
    · simp [h1]
    · by_cases h2 : s.nextRepresentative = some "TECHNICAL" <;> simp [h1, h2]
  · rw [routeAfter_billing]
    by_cases h : s.nextRepresentative = some "REFUND" <;> simp [h]

/- ========== C1 ========== -/

/-- On a parsed object, the unchecked field read always succeeds
(returning the field's string value, or `undefined` collapsed to
`none`). -/
theorem jsGetString_obj_isOk (fields : List (String × JsonValue)) (k : String) :
    ∃ v, jsGetString (JsonValue.obj fields) k = .ok v := by
  rcases hl : fields.lookup k with _ | jv
  · exact ⟨none, by simp [jsGetString, jsField, hl]⟩
  · cases jv
    case str s => exact ⟨some s, by simp [jsGetString, jsField, hl]⟩
    all_goals exact ⟨none, by simp [jsGetString, jsField, hl]⟩

/-- C1 (amended): a malformed classification response (failed `JSON.parse`)
makes `initialSupport` fail with the raw parse error, and a response that
parses to `null` makes the unguarded property access fail with a raw
`TypeError` — in neither case is a distinct `ClassificationDecodeError`
surfaced, because no such error exists.  A response that parses to an
object whose `nextRepresentative` is missing or outside the closed
enumeration is NOT an error: the stage completes normally with the
unvalidated value, and the router silently maps every unrecognised value
to the default `conversational` route (the terminal marker). -/
theorem c1_classification_decode (s : SupportState) (resp : Message) :
    initialSupport s resp none = .error .jsonParseError ∧
    initialSupport s resp (some .null) = .error .typeError ∧
    ∀ fields : List (String × JsonValue),
      ∃ v : Option String,
        jsGetString (JsonValue.obj fields) "nextRepresentative" = .ok v ∧
        initialSupport s resp (some (JsonValue.obj fields)) =
          .ok { messages := [resp], nextRepresentative := some v } ∧
        (v ≠ some "BILLING" → v ≠ some "TECHNICAL" →
          routeAfter .initial_support
            (applyDelta s { messages := [resp], nextRepresentative := some v }) =
            .ok .terminal) := by
  refine ⟨rfl, rfl, ?_⟩
  intro fields
  obtain ⟨v, hv⟩ := jsGetString_obj_isOk fields "nextRepresentative"
  refine ⟨v, hv, ?_, ?_⟩
  · simp only [initialSupport, hv]
  · intro h1 h2
    rw [routeAfter_initial]
    simp [applyDelta, h1, h2]

def c1BadState : SupportState :=
  { messages := [{ role := .user, content := "I want my money back" }]
    nextRepresentative := none
    refundAuthorized := false }

def c1Resp : Message := { role := .assistant, content := "Happy to help." }

/-- C1 (counterexample): with the classification model returning `"{}"` —
well-formed JSON whose parsed object lacks a `nextRepresentative` field —
the stage surfaces no error at all (it returns a normal delta writing
`undefined`), and the router maps the merged state to the default
`conversational` route, i.e. the terminal marker: the unrecognised output
is silently mapped to a default route, and no `ClassificationDecodeError`
is raised. -/
theorem c1_decode_counterexample :
    initialSupport c1BadState c1Resp (some (JsonValue.obj [])) =
      .ok { messages := [c1Resp], nextRepresentative := some none } ∧
    initialSupportRouter
        (applyDelta c1BadState { messages := [c1Resp], nextRepresentative := some none }) =
      "conversational" ∧
    routeAfter .initial_support
        (applyDelta c1BadState { messages := [c1Resp], nextRepresentative := some none }) =
      .ok .terminal ∧
    ∀ e : StageError,
      initialSupport c1BadState c1Resp (some (JsonValue.obj [])) ≠ .error e := by
  refine ⟨rfl, rfl, rfl, ?_⟩
  intro e h
  rw [show initialSupport c1BadState c1Resp (some (JsonValue.obj [])) =
        .ok { messages := [c1Resp], nextRepresentative := some none } from rfl] at h
  exact Except.noConfusion h

/-- C1 (witness): the amended theorem applied at a concrete non-conforming
parsed object (value `"REFUND"`, outside this stage's enumeration). -/
theorem c1_classification_decode_witness :
    initialSupport c1BadState c1Resp
        (some (JsonValue.obj [("nextRepresentative", JsonValue.str "REFUND")])) =
      .ok { messages := [c1Resp], nextRepresentative := some (some "REFUND") } ∧
    routeAfter .initial_support
        (applyDelta c1BadState
          { messages := [c1Resp], nextRepresentative := some (some "REFUND") }) =
      .ok .terminal := by
  obtain ⟨v, hv, hok, hroute⟩ := (c1_classification_decode c1BadState c1Resp).2.2
    [("nextRepresentative", JsonValue.str "REFUND")]
  have hv0 : jsGetString
      (JsonValue.obj [("nextRepresentative", JsonValue.str "REFUND")])
      "nextRepresentative" = .ok (some "REFUND") := rfl
  have hveq : some "REFUND" = v := by
    have h := hv0.symm.trans hv
    injection h
  subst hveq
  exact ⟨hok, hroute (by decide) (by decide)⟩

/- ========== C3 ========== -/

/-- C3: for every conversation state, the `handle_refund` stage with
`refundAuthorized = false` interrupts (the engine reports `interrupted`
and the state — in particular `messages` — is unchanged); with
`refundAuthorized = true` it completes, appending exactly the single
assistant message `"Refund processed!"` and changing nothing else. -/
theorem c3_refund_interrupt (o : SupportOracle) (s : SupportState) (fuel : Nat) :
    (s.refundAuthorized = false →
      handleRefund s = .interrupt "Human authorization required." ∧
      runFrom o (fuel + 1) .handle_refund s = ⟨.interrupted .handle_refund s, []⟩) ∧
    (s.refundAuthorized = true →
      handleRefund s = .delta refundDelta ∧
      runFrom o (fuel + 1) .handle_refund s =
        ⟨.completed { s with messages := s.messages ++ [refundProcessedMessage] },
          [(.handle_refund, refundDelta)]⟩) := by
  constructor
  · intro h
    have hr : handleRefund s = .interrupt "Human authorization required." := by
      simp [handleRefund, h]
    refine ⟨hr, ?_⟩
    simp [runFrom, runSupportNode, hr]
  · intro h
    have hr : handleRefund s = .delta refundDelta := by
      simp [handleRefund, h]
    refine ⟨hr, ?_⟩
    simp only [runFrom, runSupportNode, hr]
    rfl

def demoOracle : SupportOracle :=
  { initialResp := { role := .assistant, content := "How can I help?" }
    initialParse := some (JsonValue.obj [("nextRepresentative", JsonValue.str "BILLING")])
    billingResp := { role := .assistant, content := "Billing here." }
    billingParse := some (JsonValue.obj [("nextRepresentative", JsonValue.str "REFUND")])
    technicalResp := { role := .assistant, content := "Technical here." } }

def sNoAuth : SupportState := { messages := [], nextRepresentative := none, refundAuthorized := false }

def sAuth : SupportState := { messages := [], nextRepresentative := none, refundAuthorized := true }

/-- C3 (witness): the theorem at two concrete states, one unauthorized and
one authorized. -/
theorem c3_refund_interrupt_witness :
    runFrom demoOracle 1 .handle_refund sNoAuth = ⟨.interrupted .handle_refund sNoAuth, []⟩ ∧
    runFrom demoOracle 1 .handle_refund sAuth =
      ⟨.completed { sAuth with messages := sAuth.messages ++ [refundProcessedMessage] },
        [(.handle_refund, refundDelta)]⟩ :=
  ⟨((c3_refund_interrupt demoOracle sNoAuth 0).1 rfl).2,
   ((c3_refund_interrupt demoOracle sAuth 0).2 rfl).2⟩

/- ===================================================================
   Customer-support gateways — part_005 and part_006 handleMessage
   =================================================================== -/

/-- A client payload as the customer-support gateway handlers see it.  The
handlers destructure only `payload?.data?.message` and `payload?.message`;
a `threadId` or authorization flag a client might also send is modelled as
extra fields precisely to state that no handler ever reads them. -/
structure ClientPayload where
  dataMessage : Option String
  message : Option String
  threadId : Option String
  authorization : Option Bool
deriving DecidableEq, Repr

/-- JS truthiness of a possibly-undefined string (the empty string is
falsy, `undefined` is falsy). -/
def jsTruthy : Option String → Bool
  | some s => !(s = "")
  | none => false

/-- JS `a || b` over possibly-undefined strings. -/
def jsOrString (a b : Option String) : Option String :=
  if jsTruthy a then a else b

/-- `payload?.data?.message || payload?.message`: the message extraction
both gateway handlers perform (part_005 additionally falls back to the
payload object itself, which then fails its `typeof message !== 'string'`
guard, i.e. behaves like `none` here). -/
def extractedMessage (p : ClientPayload) : Option String :=
  jsOrString p.dataMessage p.message

structure RunConfig where
  threadId : String
  init : SupportState
deriving DecidableEq, Repr

/-- The initial state both gateways pass to `graph.stream`: the user
message, `nextRepresentative: null`, `refundAuthorized: false`. -/
def gatewayInitState (message : String) : SupportState :=
  { messages := [{ role := .user, content := message }]
    nextRepresentative := none
    refundAuthorized := false }

/-- part_005 `handleMessage` up to starting the run: reject a missing or
empty message, otherwise stream the graph with a freshly generated uuid
(`freshId`) as `thread_id` and the fixed initial state. -/
def gateway005Start (p : ClientPayload) (freshId : String) : Option RunConfig :=
  match extractedMessage p with
  | none => none
  | some m =>
      if m = "" then none
      else some { threadId := freshId, init := gatewayInitState m }

/-- part_006 `handleMessage` up to starting the run: identical structure
(`payload?.data?.message || payload?.message`, `if (!message)` guard,
fresh uuid thread id, same fixed initial state). -/
def gateway006Start (p : ClientPayload) (freshId : String) : Option RunConfig :=
  match extractedMessage p with
  | none => none
  | some m =>
      if m = "" then none
      else some { threadId := freshId, init := gatewayInitState m }

/- ========== run-shape helper lemmas ========== -/

theorem initialSupport_ok_refund (s : SupportState) (resp : Message)
    (p : Option JsonValue) (d : SupportDelta) :
    initialSupport s resp p = .ok d → d.refundAuthorized = none := by
  rcases p with _ | j
  · intro h
    exact absurd h (by simp [initialSupport])
  · rcases hg : jsGetString j "nextRepresentative" with e | v
    · intro h
      rw [show initialSupport s resp (some j) = .error e by
        simp [initialSupport, hg]] at h
      exact Except.noConfusion h
    · intro h
      rw [show initialSupport s resp (some j) =
          .ok { messages := [resp], nextRepresentative := some v } by
        simp [initialSupport, hg]] at h
      injection h with h'
      subst h'
      rfl

theorem billingSupport_ok_refund (s : SupportState) (resp : Message)
    (p : Option JsonValue) (d : SupportDelta) :
    billingSupport s resp p = .ok d → d.refundAuthorized = none := by
  rcases p with _ | j
  · intro h
    exact absurd h (by simp [billingSupport])
  · rcases hg : jsGetString j "nextRepresentative" with e | v
    · intro h
      rw [show billingSupport s resp (some j) = .error e by
        simp [billingSupport, hg]] at h
      exact Except.noConfusion h
    · intro h
      rw [show billingSupport s resp (some j) =
          .ok { messages := [resp], nextRepresentative := some v } by
        simp [billingSupport, hg]] at h
      injection h with h'
      subst h'
      rfl

theorem runSupportNode_delta_refund (o : SupportOracle) (cur : SupportNode)
    (s : SupportState) (d : SupportDelta) :
    runSupportNode o cur s = .delta d → d.refundAuthorized = none := by
  cases cur
  · rcases hi : initialSupport s o.initialResp o.initialParse with e | d'
    · simp [runSupportNode, hi]
    · simp only [runSupportNode, hi]
      intro h
      injection h with h'
      subst h'
      exact initialSupport_ok_refund s o.initialResp o.initialParse d' hi
  · rcases hb : billingSupport s o.billingResp o.billingParse with e | d'
    · simp [runSupportNode, hb]
    · simp only [runSupportNode, hb]
      intro h
      injection h with h'
      subst h'
      exact billingSupport_ok_refund s o.billingResp o.billingParse d' hb
  · simp [runSupportNode, technicalSupport]
    rintro rfl; rfl
  · simp only [runSupportNode, handleRefund]
    by_cases h : s.refundAuthorized <;> simp [h] <;> rintro rfl <;> rfl

/-- Stages never write the `refundAuthorized` channel, so a run started
unauthorized stays unauthorized and `handle_refund` can only interrupt:
it never appears among the completed nodes of the trace. -/
theorem refund_unreachable (o : SupportOracle) (fuel : Nat) :
    ∀ (cur : SupportNode) (s : SupportState), s.refundAuthorized = false →
      ∀ pr ∈ (runFrom o fuel cur s).trace, pr.1 ≠ SupportNode.handle_refund := by
  induction fuel with
  | zero => intro cur s _ pr hpr; simp [runFrom] at hpr
  | succ n ih =>
      intro cur s h pr hpr
      rcases hstep : runSupportNode o cur s with d | r | e
      · have hd : d.refundAuthorized = none := runSupportNode_delta_refund o cur s d hstep
        have hcur : cur ≠ .handle_refund := by
          rintro rfl
          simp [runSupportNode, handleRefund, h] at hstep
        have h' : (applyDelta s d).refundAuthorized = false := by
          simp [applyDelta, hd, h]
        rcases hroute : routeAfter cur (applyDelta s d) with e' | t
        · simp only [runFrom, hstep, hroute] at hpr
          simp at hpr
          rw [hpr]
          exact hcur
        · cases t with
          | terminal =>
              simp only [runFrom, hstep, hroute] at hpr
              simp at hpr
              rw [hpr]
              exact hcur
          | node next =>
              simp only [runFrom, hstep, hroute] at hpr
              simp at hpr
              rcases hpr with hpr | hpr
              · rw [hpr]; exact hcur
              · exact ih next (applyDelta s d) h' pr hpr
      · simp only [runFrom, hstep] at hpr
        simp at hpr
      · simp only [runFrom, hstep] at hpr
        simp at hpr

/- ========== C10 ========== -/

/-- C10: each customer-support gateway handler starts every accepted run
with the freshly generated uuid as thread id, `refundAuthorized = false`
and `nextRepresentative = null`; neither handler reads a thread id or an
authorization flag from the client payload (the started configuration is
invariant under them), so no interrupted thread is ever resumed through
these entry points and the `handle_refund` success branch never completes
in any run they start. -/
theorem c10_gateway_fresh_thread :
    (∀ (p : ClientPayload) (freshId : String) (cfg : RunConfig),
        gateway005Start p freshId = some cfg →
        cfg.threadId = freshId ∧ cfg.init.refundAuthorized = false ∧
        cfg.init.nextRepresentative = none) ∧
    (∀ (p : ClientPayload) (freshId : String) (cfg : RunConfig),
        gateway006Start p freshId = some cfg →
        cfg.threadId = freshId ∧ cfg.init.refundAuthorized = false ∧
        cfg.init.nextRepresentative = none) ∧
    (∀ (p : ClientPayload) (freshId : String) (t : Option String) (a : Option Bool),
        gateway005Start p freshId =
          gateway005Start { p with threadId := t, authorization := a } freshId ∧
        gateway006Start p freshId =
          gateway006Start { p with threadId := t, authorization := a } freshId) ∧
    (∀ (o : SupportOracle) (fuel : Nat) (m : String),
        ∀ pr ∈ (runFrom o fuel .initial_support (gatewayInitState m)).trace,
          pr.1 ≠ SupportNode.handle_refund) := by
  refine ⟨?_, ?_, ?_, ?_⟩
  · intro p fid cfg h
    rcases hm : extractedMessage p with _ | m
    · simp [gateway005Start, hm] at h
    · by_cases he : m = ""
      · simp [gateway005Start, hm, he] at h
      · simp [gateway005Start, hm, he] at h
        rw [← h]
        exact ⟨rfl, rfl, rfl⟩
  · intro p fid cfg h
    rcases hm : extractedMessage p with _ | m
    · simp [gateway006Start, hm] at h
    · by_cases he : m = ""
      · simp [gateway006Start, hm, he] at h
      · simp [gateway006Start, hm, he] at h
        rw [← h]
        exact ⟨rfl, rfl, rfl⟩
  · intro p fid t a
    exact ⟨rfl, rfl⟩
  · intro o fuel m
    exact refund_unreachable o fuel .initial_support (gatewayInitState m) rfl

/-- C10 (witness): the theorem applied to a concrete payload that even
carries a thread id and an authorization flag of its own; the started
configuration still uses the fresh uuid and the unauthorized defaults. -/
theorem c10_gateway_fresh_thread_witness :
    (RunConfig.threadId { threadId := "uuid-1", init := gatewayInitState "hi" } = "uuid-1") ∧
    (gatewayInitState "hi").refundAuthorized = false ∧
    (gatewayInitState "hi").nextRepresentative = none :=
  c10_gateway_fresh_thread.1
    { dataMessage := none, message := some "hi"
      threadId := some "attacker-chosen", authorization := some true }
    "uuid-1" { threadId := "uuid-1", init := gatewayInitState "hi" } rfl

/- ===================================================================
   C5 infrastructure: execution paths of the customer-support graph
   and the evaluator-optimizer loop (part_003 evaluatorOptimizer)
   =================================================================== -/

theorem runFrom_technical_eq (o : SupportOracle) (s : SupportState) (fuel : Nat) :
    runFrom o (fuel + 1) .technical_support s =
      ⟨.completed (applyDelta s { messages := [o.technicalResp] }),
        [(.technical_support, { messages := [o.technicalResp] })]⟩ := by
  simp [runFrom, runSupportNode, technicalSupport, routeAfter]

theorem runFrom_refund_eq (o : SupportOracle) (s : SupportState) (fuel : Nat) :
    runFrom o (fuel + 1) .handle_refund s =
      if s.refundAuthorized
      then ⟨.completed (applyDelta s refundDelta), [(.handle_refund, refundDelta)]⟩
      else ⟨.interrupted .handle_refund s, []⟩ := by
  by_cases h : s.refundAuthorized <;>
    simp [runFrom, runSupportNode, handleRefund, h, routeAfter]


/-- One engine step, unfolded (for stepwise reasoning about runs). -/
theorem runFrom_succ (o : SupportOracle) (fuel : Nat) (cur : SupportNode) (s : SupportState) :
    runFrom o (fuel + 1) cur s =
      match runSupportNode o cur s with
      | .interrupt _ => ⟨.interrupted cur s, []⟩
      | .failure e => ⟨.failed (.stage e) s, []⟩
      | .delta d =>
          match routeAfter cur (applyDelta s d) with
          | .error e => ⟨.failed e (applyDelta s d), [(cur, d)]⟩
          | .ok .terminal => ⟨.completed (applyDelta s d), [(cur, d)]⟩
          | .ok (.node next) =>
              ⟨(runFrom o fuel next (applyDelta s d)).outcome,
                (cur, d) :: (runFrom o fuel next (applyDelta s d)).trace⟩ := by
  rfl

theorem billing_run_cases (o : SupportOracle) (s : SupportState) (fuel : Nat) :
    ((runFrom o (fuel + 1 + 1) .billing_support s).visited = [] ∨
      (runFrom o (fuel + 1 + 1) .billing_support s).visited = [.billing_support] ∨
      (runFrom o (fuel + 1 + 1) .billing_support s).visited =
        [.billing_support, .handle_refund]) ∧
    (runFrom o (fuel + 1 + 1) .billing_support s).outcome.isOutOfFuel = false := by
  rw [runFrom_succ]
  rcases hp : o.billingParse with _ | j
  · constructor
    · left
      simp [runSupportNode, billingSupport, hp, SupportRun.visited]
    · simp [runSupportNode, billingSupport, hp, SupportOutcome.isOutOfFuel]
  · rcases hg : jsGetString j "nextRepresentative" with e | v
    · constructor
      · left
        simp [runSupportNode, billingSupport, hp, hg, SupportRun.visited]
      · simp [runSupportNode, billingSupport, hp, hg, SupportOutcome.isOutOfFuel]
    · have hstep : runSupportNode o .billing_support s =
          .delta { messages := [o.billingResp], nextRepresentative := some v } := by
        simp [runSupportNode, billingSupport, hp, hg]
      have hroute : routeAfter .billing_support
          (applyDelta s { messages := [o.billingResp], nextRepresentative := some v }) =
          .ok (if v = some "REFUND"
            then SupportTarget.node .handle_refund else SupportTarget.terminal) := by
        rw [routeAfter_billing]
        simp [applyDelta]
      have hauth : (applyDelta s
          { messages := [o.billingResp], nextRepresentative := some v }).refundAuthorized =
          s.refundAuthorized := by
        simp [applyDelta]
      by_cases hr : v = some "REFUND"
      · rw [if_pos hr] at hroute
        simp only [hstep, hroute]
        rw [runFrom_refund_eq, hauth]
        by_cases ha : s.refundAuthorized
        · rw [if_pos ha]
          exact ⟨Or.inr (Or.inr rfl), rfl⟩
        · rw [if_neg ha]
          exact ⟨Or.inr (Or.inl rfl), rfl⟩
      · rw [if_neg hr] at hroute
        simp only [hstep, hroute]
        exact ⟨Or.inr (Or.inl rfl), rfl⟩

/-- The execution paths the customer-support graph can take (completed
nodes in order); shorter entries arise from a stage failure or an
interrupt cutting the run short. -/
def supportPaths : List (List SupportNode) :=
  [[], [.initial_support], [.initial_support, .technical_support],
   [.initial_support, .billing_support],
   [.initial_support, .billing_support, .handle_refund]]

theorem support_run_paths (o : SupportOracle) (s : SupportState) (k : Nat) :
    (runFrom o (k + 3) .initial_support s).visited ∈ supportPaths ∧
    (runFrom o (k + 3) .initial_support s).outcome.isOutOfFuel = false := by
  rw [show k + 3 = k + 1 + 1 + 1 from rfl, runFrom_succ]
  rcases hp : o.initialParse with _ | j
  · constructor
    · simp [runSupportNode, initialSupport, hp, SupportRun.visited, supportPaths]
    · simp [runSupportNode, initialSupport, hp, SupportOutcome.isOutOfFuel]
  · rcases hg : jsGetString j "nextRepresentative" with e | v
    · constructor
      · simp [runSupportNode, initialSupport, hp, hg, SupportRun.visited, supportPaths]
      · simp [runSupportNode, initialSupport, hp, hg, SupportOutcome.isOutOfFuel]
    · have hstep : runSupportNode o .initial_support s =
          .delta { messages := [o.initialResp], nextRepresentative := some v } := by
        simp [runSupportNode, initialSupport, hp, hg]
      have hroute : routeAfter .initial_support
          (applyDelta s { messages := [o.initialResp], nextRepresentative := some v }) =
          .ok (if v = some "BILLING" then SupportTarget.node .billing_support
            else if v = some "TECHNICAL" then SupportTarget.node .technical_support
            else SupportTarget.terminal) := by
        rw [routeAfter_initial]
        simp [applyDelta]
      by_cases hb : v = some "BILLING"
      · rw [if_pos hb] at hroute
        simp only [hstep, hroute]
        have hcase := billing_run_cases o
          (applyDelta s { messages := [o.initialResp], nextRepresentative := some v }) k
        constructor
        · have h' := hcase.1
          simp only [SupportRun.visited] at h' ⊢
          rcases h' with h | h | h <;> simp [h, supportPaths]
        · simpa [SupportOutcome.isOutOfFuel] using hcase.2
      · by_cases ht : v = some "TECHNICAL"
        · rw [if_neg hb, if_pos ht] at hroute
          simp only [hstep, hroute]
          rw [runFrom_technical_eq]
          exact ⟨by simp [SupportRun.visited, supportPaths], rfl⟩
        · rw [if_neg hb, if_neg ht] at hroute
          simp only [hstep, hroute]
          exact ⟨by simp [SupportRun.visited, supportPaths], rfl⟩

/- ===================================================================
   Evaluator-optimizer workflow — part_003 evaluatorOptimizer
   =================================================================== -/

/-- The evaluator-optimizer `StateAnnotation`: four plain last-value
channels (`undefined` before first write modelled as `none`). -/
structure EvalState where
  joke : Option String
  topic : Option String
  feedback : Option String
  funnyOrNot : Option String
deriving DecidableEq, Repr

inductive Grade
  | funny
  | notFunny
deriving DecidableEq, Repr

def Grade.toStr : Grade → String
  | .funny => "funny"
  | .notFunny => "not funny"

/-- A schema-validated evaluator response (`withStructuredOutput` with the
zod `feedbackSchema`): the grade is drawn from the declared enum. -/
structure EvalFeedback where
  grade : Grade
  feedback : String
deriving DecidableEq, Repr

/-- The external model responses of a run: the node executed t-th receives
`gen t` (generator) or `eval t` (evaluator). -/
structure EvalOracle where
  gen : Nat → String
  eval : Nat → EvalFeedback

inductive EvalNode
  | llmCallGenerator
  | llmCallEvaluator
deriving DecidableEq, Repr

/-- `routeJoke`: maps the state to a branch key; the JS function returns
`undefined` (`none`) when `funnyOrNot` is neither enum value. -/
def routeJoke (s : EvalState) : Option String :=
  if s.funnyOrNot = some "funny" then some "Accepted"
  else if s.funnyOrNot = some "not funny" then some "Rejected + Feedback"
  else none

/-- Edge-mapping table of the conditional edge out of `llmCallEvaluator`. -/
def evalEdges : List (String × String) :=
  [("Accepted", "__end__"), ("Rejected + Feedback", "llmCallGenerator")]

inductive EvalOutcome
  | completed (final : EvalState)
  | failed (state : EvalState)
  | outOfFuel (pending : EvalNode) (state : EvalState)
deriving DecidableEq, Repr

def EvalOutcome.isOutOfFuel : EvalOutcome → Bool
  | .outOfFuel _ _ => true
  | _ => false

structure EvalRun where
  outcome : EvalOutcome
  trace : List EvalNode
deriving DecidableEq, Repr

/-- Modelled from the spec: the execution engine of §4.2 specialised to the
evaluator-optimizer graph (the engine is the external langgraph library,
absent from src/): `llmCallGenerator` has the unconditional edge to
`llmCallEvaluator`; `llmCallEvaluator`'s router key is looked up in the
edge table, Accepted denoting the terminal marker and "Rejected +
Feedback" routing back to the generator.  The spec's engine loop has no
recursion limit, so a run exhausting every fuel bound models divergence;
`t` counts executed nodes (each calls the model once). -/
def runEval (o : EvalOracle) : Nat → EvalNode → EvalState → Nat → EvalRun
  | 0, n, s, _ => ⟨.outOfFuel n s, []⟩
  | fuel + 1, .llmCallGenerator, s, t =>
      let s' := { s with joke := some (o.gen t) }
      let r := runEval o fuel .llmCallEvaluator s' (t + 1)
      ⟨r.outcome, .llmCallGenerator :: r.trace⟩
  | fuel + 1, .llmCallEvaluator, s, t =>
      let g := o.eval t
      let s' := { s with funnyOrNot := some g.grade.toStr, feedback := some g.feedback }
      match routeJoke s' with
      | none => ⟨.failed s', [.llmCallEvaluator]⟩
      | some key =>
          match evalEdges.lookup key with
          | none => ⟨.failed s', [.llmCallEvaluator]⟩
          | some target =>
              if target = "__end__" then ⟨.completed s', [.llmCallEvaluator]⟩
              else if target = "llmCallGenerator" then
                let r := runEval o fuel .llmCallGenerator s' (t + 1)
                ⟨r.outcome, .llmCallEvaluator :: r.trace⟩
              else ⟨.failed s', [.llmCallEvaluator]⟩

/-- The edges declared on the evaluator-optimizer graph (generator to
evaluator unconditionally; evaluator back to generator via the declared
"Rejected + Feedback" mapping). -/
def evalHasEdge : EvalNode → EvalNode → Bool
  | .llmCallGenerator, .llmCallEvaluator => true
  | .llmCallEvaluator, .llmCallGenerator => true
  | _, _ => false

/-- The edges declared on the customer-support graph between inner nodes. -/
def supportHasEdge : SupportNode → SupportNode → Bool
  | .initial_support, .billing_support => true
  | .initial_support, .technical_support => true
  | .billing_support, .handle_refund => true
  | _, _ => false

/-- Every trace of the evaluator-optimizer engine starts at the invoked
node and each consecutive pair follows a declared edge: a node is
revisited only through the explicit evaluator-to-generator loop edge. -/
theorem runEval_trace_chain (o : EvalOracle) :
    ∀ (fuel : Nat) (n : EvalNode) (s : EvalState) (t : Nat),
      (runEval o fuel n s t).trace = [] ∨
      ∃ rest, (runEval o fuel n s t).trace = n :: rest ∧
        List.Chain (fun a b => evalHasEdge a b = true) n rest := by
  intro fuel
  induction fuel with
  | zero => intro n s t; left; simp [runEval]
  | succ m ih =>
      intro n s t
      cases n with
      | llmCallGenerator =>
          right
          refine ⟨(runEval o m .llmCallEvaluator
            { s with joke := some (o.gen t) } (t + 1)).trace, by simp [runEval], ?_⟩
          rcases ih .llmCallEvaluator { s with joke := some (o.gen t) } (t + 1) with h | ⟨rest, hr, hc⟩
          · rw [h]; exact List.Chain.nil
          · rw [hr]; exact List.Chain.cons rfl hc
      | llmCallEvaluator =>
          rcases hg : (o.eval t).grade with _ | _
          · right
            refine ⟨[], ?_, List.Chain.nil⟩
            simp [runEval, hg, Grade.toStr, routeJoke, evalEdges]
          · right
            have hroute : routeJoke { s with
                funnyOrNot := some (o.eval t).grade.toStr
                feedback := some (o.eval t).feedback } = some "Rejected + Feedback" := by
              simp [routeJoke, hg, Grade.toStr]
            refine ⟨(runEval o m .llmCallGenerator
              { s with funnyOrNot := some (o.eval t).grade.toStr
                       feedback := some (o.eval t).feedback } (t + 1)).trace, ?_, ?_⟩
            · simp only [runEval, hroute]
              rfl
            · rcases ih .llmCallGenerator
                { s with funnyOrNot := some (o.eval t).grade.toStr
                         feedback := some (o.eval t).feedback } (t + 1) with h | ⟨rest, hr, hc⟩
              · rw [h]; exact List.Chain.nil
              · rw [hr]; exact List.Chain.cons rfl hc

/-- The oracle whose evaluator always answers "not funny". -/
def alwaysNotFunny : EvalOracle :=
  { gen := fun _ => "a joke"
    eval := fun _ => { grade := .notFunny, feedback := "make it funnier" } }

/-- Under `alwaysNotFunny` the loop never leaves the
generator/evaluator cycle: every fuel bound is exhausted. -/
theorem runEval_alwaysNotFunny_diverges :
    ∀ (fuel : Nat) (n : EvalNode) (s : EvalState) (t : Nat),
      (runEval alwaysNotFunny fuel n s t).outcome.isOutOfFuel = true := by
  intro fuel
  induction fuel with
  | zero => intro n s t; simp [runEval, EvalOutcome.isOutOfFuel]
  | succ m ih =>
      intro n s t
      cases n with
      | llmCallGenerator =>
          simp only [runEval]
          exact ih .llmCallEvaluator _ (t + 1)
      | llmCallEvaluator =>
          have hroute : routeJoke { s with
              funnyOrNot := some (alwaysNotFunny.eval t).grade.toStr
              feedback := some (alwaysNotFunny.eval t).feedback } =
              some "Rejected + Feedback" := by
            simp [routeJoke, alwaysNotFunny, Grade.toStr]
          simp only [runEval, hroute]
          exact ih .llmCallGenerator _ (t + 1)

/-- The initial state of the evaluator-optimizer invocation
(`invoke({ topic: 'Funrniture' })`). -/
def evalInitState : EvalState :=
  { joke := none, topic := some "Funrniture", feedback := none, funnyOrNot := none }

/- ========== C5 ========== -/

/-- C5 (counterexample): termination for every sequence of external model
responses fails — with the response sequence whose evaluator always
grades "not funny", the evaluator-optimizer run (which passed
compilation) exceeds every step bound: no fuel suffices for it to finish,
because the evaluator-to-generator retry edge has no progress guard. -/
theorem c5_termination_counterexample :
    ¬ ∃ fuel : Nat,
        (runEval alwaysNotFunny fuel .llmCallGenerator evalInitState 0).outcome.isOutOfFuel
          = false := by
  rintro ⟨fuel, h⟩
  rw [runEval_alwaysNotFunny_diverges fuel .llmCallGenerator evalInitState 0] at h
  exact Bool.noConfusion h

/-- C5 (amended): every run of the customer-support graph terminates
within three node executions; the nodes it completes form one of the five
graph paths, never revisiting a node, and every consecutive pair of
visited nodes follows a declared edge.  In the evaluator-optimizer graph
every trace likewise follows declared edges only — a node is revisited
only through the explicit evaluator-to-generator retry edge — but
termination for every model-response sequence does not hold there (see
the counterexample): the loop has no progress guard, so an adversarial
response sequence runs forever (bounded externally only by the library's
recursion limit, which the spec does not model). -/
theorem c5_bounded_execution :
    (∀ (o : SupportOracle) (s : SupportState) (k : Nat),
        (runFrom o (k + 3) .initial_support s).visited ∈ supportPaths ∧
        (runFrom o (k + 3) .initial_support s).visited.Nodup ∧
        List.Chain' (fun a b => supportHasEdge a b = true)
          (runFrom o (k + 3) .initial_support s).visited ∧
        (runFrom o (k + 3) .initial_support s).outcome.isOutOfFuel = false) ∧
    (∀ (o : EvalOracle) (fuel : Nat) (n : EvalNode) (s : EvalState) (t : Nat),
        List.Chain' (fun a b => evalHasEdge a b = true) (runEval o fuel n s t).trace) := by
  constructor
  · intro o s k
    obtain ⟨hmem, hfuel⟩ := support_run_paths o s k
    refine ⟨hmem, ?_, ?_, hfuel⟩
    · have h' := hmem
      simp only [supportPaths, List.mem_cons, List.not_mem_nil, or_false] at h'
      rcases h' with h | h | h | h | h <;> rw [h] <;> decide
    · have h' := hmem
      simp only [supportPaths, List.mem_cons, List.not_mem_nil, or_false] at h'
      rcases h' with h | h | h | h | h <;> rw [h] <;>
        simp [List.chain'_cons, List.chain'_singleton, supportHasEdge]
  · intro o fuel n s t
    rcases runEval_trace_chain o fuel n s t with h | ⟨rest, hr, hc⟩
    · rw [h]; exact trivial
    · rw [hr]; exact hc

/- ===================================================================
   Prompt-chain workflow — workflow.service.ts promptChain
   =================================================================== -/

/-- JS `String.prototype.includes` with a single-character needle
(modelled on the character list so it is kernel-evaluable). -/
def jsIncludesChar (s : String) (c : Char) : Bool := s.data.contains c

/-- The promptChain `StateAnnotation`: four plain last-value channels. -/
structure PCState where
  topic : Option String
  joke : Option String
  improvedJoke : Option String
  finalJoke : Option String
deriving DecidableEq, Repr

/-- The model responses of a run (each node calls the model once along
the chain). -/
structure PCOracle where
  genResp : String
  improveResp : String
  polishResp : String
deriving DecidableEq, Repr

inductive PCNode
  | generateJoke
  | improveJoke
  | polishJoke
deriving DecidableEq, Repr

/-- `checkPunchline` gate: "Pass" when the joke contains "?" or "!",
otherwise "Fail" (`state.joke?.includes` on an undefined joke is
undefined, hence falsy). -/
def checkPunchline (s : PCState) : String :=
  match s.joke with
  | some j => if jsIncludesChar j '?' || jsIncludesChar j '!' then "Pass" else "Fail"
  | none => "Fail"

/-- Edge-mapping table of the conditional edge out of `generateJoke`, as
written in the source: keys `Pass` and `End` (note: not `Fail`). -/
def pcEdges : List (String × String) :=
  [("Pass", "improveJoke"), ("End", "__end__")]

inductive PCOutcome
  | completed (final : PCState)
  | failedRouting (key : String) (state : PCState)
  | outOfFuel (pending : PCNode) (state : PCState)
deriving DecidableEq, Repr

structure PCRun where
  outcome : PCOutcome
  trace : List PCNode
deriving DecidableEq, Repr

/-- Modelled from the spec: the execution engine of §4.2 specialised to
the promptChain graph (the engine is the external langgraph library,
absent from src/): `generateJoke` has the conditional edge whose router
is `checkPunchline` with table `pcEdges` (an unmapped router value is a
routing failure, §4.2 step 7); `improveJoke` then `polishJoke` follow
unconditional edges to the terminal marker. -/
def runPC (o : PCOracle) : Nat → PCNode → PCState → PCRun
  | 0, n, s => ⟨.outOfFuel n s, []⟩
  | fuel + 1, .generateJoke, s =>
      let s' := { s with joke := some o.genResp }
      match pcEdges.lookup (checkPunchline s') with
      | none => ⟨.failedRouting (checkPunchline s') s', [.generateJoke]⟩
      | some target =>
          if target = "__end__" then ⟨.completed s', [.generateJoke]⟩
          else if target = "improveJoke" then
            let r := runPC o fuel .improveJoke s'
            ⟨r.outcome, .generateJoke :: r.trace⟩
          else ⟨.failedRouting target s', [.generateJoke]⟩
  | _fuel + 1, .improveJoke, s =>
      let s' := { s with improvedJoke := some o.improveResp }
      let r := runPC o _fuel .polishJoke s'
      ⟨r.outcome, .improveJoke :: r.trace⟩
  | _fuel + 1, .polishJoke, s =>
      ⟨.completed { s with finalJoke := some o.polishResp }, [.polishJoke]⟩

/-- `invoke({ topic: 'cats' })`: the initial prompt-chain state. -/
def pcInitState : PCState :=
  { topic := some "cats", joke := none, improvedJoke := none, finalJoke := none }

/-- A model run whose generated joke contains neither "?" nor "!". -/
def pcNoPunchOracle : PCOracle :=
  { genResp := "A cat sat on a mat.", improveResp := "improved", polishResp := "final" }

/-- A model run whose generated joke contains "?" and "!". -/
def pcPunchOracle : PCOracle :=
  { genResp := "Why did the cat cross the road? To chase the mouse!"
    improveResp := "improved", polishResp := "final" }

/- ========== C2 ========== -/

/-- C2: with topic "cats", a generated joke containing "?" or "!" indeed
takes the path generate, improve, polish, end — but a joke containing
neither makes `checkPunchline` return "Fail", which is NOT a key of the
edge-mapping table (its keys are `Pass` and the unreturnable dead key
`End`), so instead of terminating at the end marker the run fails with a
routing error: the "otherwise generate then end" half of the claim, which
both the spec scenario and the gate's own intent prescribe, is broken by
the `End`-for-`Fail` slip in the table. -/
theorem c2_checkpunchline_unmapped :
    checkPunchline { pcInitState with joke := some pcNoPunchOracle.genResp } = "Fail" ∧
    pcEdges.lookup "Fail" = none ∧
    runPC pcNoPunchOracle 9 .generateJoke pcInitState =
      ⟨.failedRouting "Fail" { pcInitState with joke := some pcNoPunchOracle.genResp },
        [.generateJoke]⟩ ∧
    (runPC pcPunchOracle 9 .generateJoke pcInitState).trace =
      [.generateJoke, .improveJoke, .polishJoke] ∧
    (runPC pcPunchOracle 9 .generateJoke pcInitState).outcome =
      .completed
        { topic := some "cats"
          joke := some pcPunchOracle.genResp
          improvedJoke := some "improved"
          finalJoke := some "final" } := by
  refine ⟨by decide, by decide, by decide, by decide, by decide⟩

/- ===================================================================
   Parallelization workflow — workflow.service.ts parallelization
   =================================================================== -/

/-- A plain (reducer-less) `Annotation` channel: the incoming write, when
present, replaces the current value. -/
def lastWrite (old w : Option String) : Option String :=
  match w with
  | some v => some v
  | none => old

/-- The parallelization `StateAnnotation`: five plain last-value channels
(`topic`, `joke`, `story`, `poem`, `combinedOutput`); no reducer is
declared on any of them. -/
structure ParState where
  topic : Option String
  joke : Option String
  story : Option String
  poem : Option String
  combinedOutput : Option String
deriving DecidableEq, Repr

structure ParDelta where
  topic : Option String := none
  joke : Option String := none
  story : Option String := none
  poem : Option String := none
  combinedOutput : Option String := none
deriving DecidableEq, Repr

/-- Merge one node's partial update into the state, channel by channel
(all last-value). -/
def parApply (s : ParState) (d : ParDelta) : ParState where
  topic := lastWrite s.topic d.topic
  joke := lastWrite s.joke d.joke
  story := lastWrite s.story d.story
  poem := lastWrite s.poem d.poem
  combinedOutput := lastWrite s.combinedOutput d.combinedOutput

/-- The three fan-out model responses of a run. -/
structure ParOracle where
  jokeResp : String
  storyResp : String
  poemResp : String
deriving DecidableEq, Repr

def callLlm1 (o : ParOracle) (s : ParState) : ParDelta :=
  match s with
  | _ => { joke := some o.jokeResp }

def callLlm2 (o : ParOracle) (s : ParState) : ParDelta :=
  match s with
  | _ => { story := some o.storyResp }

def callLlm3 (o : ParOracle) (s : ParState) : ParDelta :=
  match s with
  | _ => { poem := some o.poemResp }

/-- JS template-literal interpolation of a possibly-undefined field. -/
def jsDisplay : Option String → String
  | some v => v
  | none => "undefined"

/-- The aggregator's combined text, concatenated exactly as in source. -/
def aggregateText (s : ParState) : String :=
  "Here's a story, joke, and poem about " ++ jsDisplay s.topic ++ "!\n\n" ++
    "STORY:\n" ++ jsDisplay s.story ++ "\n\n" ++
    "JOKE:\n" ++ jsDisplay s.joke ++ "\n\n" ++
    "POEM:\n" ++ jsDisplay s.poem

def aggregator (s : ParState) : ParDelta :=
  { combinedOutput := some (aggregateText s) }

/-- `invoke({ topic: 'cats' })` seeds only the topic channel. -/
def parInitState (topic : String) : ParState :=
  { topic := some topic, joke := none, story := none, poem := none, combinedOutput := none }

/-- Modelled from the spec: the fan-out/join of §5 (executed by the
external langgraph engine, absent from src/) — the three branches all
read the forked state, their deltas are merged into the shared state in
whatever order the branches complete (`ds`, a permutation of the three),
and the aggregator runs exactly once, only after all three deltas have
been merged. -/
def parallelRun (o : ParOracle) (topic : String) (ds : List ParDelta) : ParState :=
  let s1 := ds.foldl parApply (parInitState topic)
  parApply s1 (aggregator s1)

/-- Folding branch deltas over a last-value channel: if every delta either
skips the channel or writes the same value `v`, and some delta writes it
(or the seed already holds it), the fold ends with `v`. -/
theorem foldl_parApply_field (f : ParState → Option String) (g : ParDelta → Option String)
    (hcompat : ∀ s d, f (parApply s d) = lastWrite (f s) (g d)) :
    ∀ (ds : List ParDelta) (s : ParState) (v : String),
      (∀ d ∈ ds, g d = none ∨ g d = some v) →
      ((∃ d ∈ ds, g d = some v) ∨ f s = some v) →
      f (ds.foldl parApply s) = some v := by
  intro ds
  induction ds with
  | nil =>
      intro s v _ h
      rcases h with ⟨d, hd, _⟩ | h
      · exact absurd hd (List.not_mem_nil d)
      · simpa using h
  | cons d rest ih =>
      intro s v hall hex
      simp only [List.foldl_cons]
      apply ih (parApply s d) v
      · intro d' hd'
        exact hall d' (List.mem_cons_of_mem d hd')
      · rcases hex with ⟨d', hd', hg⟩ | hf
        · rcases List.mem_cons.mp hd' with rfl | hmem
          · right
            rw [hcompat, hg]
            rfl
          · left
            exact ⟨d', hmem, hg⟩
        · rcases hall d (List.mem_cons_self d rest) with hnone | hsome
          · right
            rw [hcompat, hnone]
            exact hf
          · right
            rw [hcompat, hsome]
            rfl

/- ========== C6 ========== -/

/-- C6 (amended): for every assignment of model outputs to the three
fan-out branches and every order in which the branch deltas are merged,
the aggregator — which runs only after all three branches' deltas have
been merged — observes all three outputs and its `combinedOutput`
contains all of them.  The branches do not clobber each other because
they write pairwise disjoint last-value channels; no append merge policy
is declared (or needed) on these channels. -/
theorem c6_parallel_join (o : ParOracle) (topic : String) (ds : List ParDelta)
    (hperm : ds.Perm
      [callLlm1 o (parInitState topic), callLlm2 o (parInitState topic),
        callLlm3 o (parInitState topic)]) :
    (ds.foldl parApply (parInitState topic)).joke = some o.jokeResp ∧
    (ds.foldl parApply (parInitState topic)).story = some o.storyResp ∧
    (ds.foldl parApply (parInitState topic)).poem = some o.poemResp ∧
    (ds.foldl parApply (parInitState topic)).topic = some topic ∧
    (parallelRun o topic ds).combinedOutput =
      some ("Here's a story, joke, and poem about " ++ topic ++ "!\n\n" ++
        "STORY:\n" ++ o.storyResp ++ "\n\n" ++
        "JOKE:\n" ++ o.jokeResp ++ "\n\n" ++
        "POEM:\n" ++ o.poemResp) := by
  have hmem : ∀ d ∈ ds,
      d = callLlm1 o (parInitState topic) ∨ d = callLlm2 o (parInitState topic) ∨
      d = callLlm3 o (parInitState topic) := by
    intro d hd
    have := hperm.mem_iff.mp hd
    simpa [List.mem_cons] using this
  have hjoke : (ds.foldl parApply (parInitState topic)).joke = some o.jokeResp := by
    apply foldl_parApply_field ParState.joke ParDelta.joke (fun s d => rfl)
    · intro d hd
      rcases hmem d hd with rfl | rfl | rfl
      · right; rfl
      · left; rfl
      · left; rfl
    · left
      exact ⟨callLlm1 o (parInitState topic),
        hperm.mem_iff.mpr (List.mem_cons_self _ _), rfl⟩
  have hstory : (ds.foldl parApply (parInitState topic)).story = some o.storyResp := by
    apply foldl_parApply_field ParState.story ParDelta.story (fun s d => rfl)
    · intro d hd
      rcases hmem d hd with rfl | rfl | rfl
      · left; rfl
      · right; rfl
      · left; rfl
    · left
      refine ⟨callLlm2 o (parInitState topic), hperm.mem_iff.mpr ?_, rfl⟩
      simp
  have hpoem : (ds.foldl parApply (parInitState topic)).poem = some o.poemResp := by
    apply foldl_parApply_field ParState.poem ParDelta.poem (fun s d => rfl)
    · intro d hd
      rcases hmem d hd with rfl | rfl | rfl
      · left; rfl
      · left; rfl
      · right; rfl
    · left
      refine ⟨callLlm3 o (parInitState topic), hperm.mem_iff.mpr ?_, rfl⟩
      simp
  have htopic : (ds.foldl parApply (parInitState topic)).topic = some topic := by
    apply foldl_parApply_field ParState.topic ParDelta.topic (fun s d => rfl)
    · intro d hd
      rcases hmem d hd with rfl | rfl | rfl
      · left; rfl
      · left; rfl
      · left; rfl
    · right; rfl
  refine ⟨hjoke, hstory, hpoem, htopic, ?_⟩
  show (parApply _ (aggregator _)).combinedOutput = _
  rw [show ∀ s : ParState, (parApply s (aggregator s)).combinedOutput =
      some (aggregateText s) from fun s => rfl]
  rw [show ∀ s : ParState, aggregateText s =
      "Here's a story, joke, and poem about " ++ jsDisplay s.topic ++ "!\n\n" ++
        "STORY:\n" ++ jsDisplay s.story ++ "\n\n" ++
        "JOKE:\n" ++ jsDisplay s.joke ++ "\n\n" ++
        "POEM:\n" ++ jsDisplay s.poem from fun s => rfl]
  rw [hjoke, hstory, hpoem, htopic]
  rfl

def c6DemoOracle : ParOracle :=
  { jokeResp := "a joke", storyResp := "a story", poemResp := "a poem" }

/-- C6 (witness): the amended theorem at a concrete oracle with the three
branch deltas merged in a different order than declared. -/
theorem c6_parallel_join_witness :
    (parallelRun c6DemoOracle "cats"
        [callLlm3 c6DemoOracle (parInitState "cats"),
          callLlm1 c6DemoOracle (parInitState "cats"),
          callLlm2 c6DemoOracle (parInitState "cats")]).combinedOutput =
      some ("Here's a story, joke, and poem about " ++ "cats" ++ "!\n\n" ++
        "STORY:\n" ++ "a story" ++ "\n\n" ++
        "JOKE:\n" ++ "a joke" ++ "\n\n" ++
        "POEM:\n" ++ "a poem") :=
  (c6_parallel_join c6DemoOracle "cats"
    [callLlm3 c6DemoOracle (parInitState "cats"),
      callLlm1 c6DemoOracle (parInitState "cats"),
      callLlm2 c6DemoOracle (parInitState "cats")] (by decide)).2.2.2.2

def c6WriteFirst : ParDelta := { joke := some "first" }

def c6WriteSecond : ParDelta := { joke := some "second" }

/-- C6 (counterexample): the fan-out channels do not use the append merge
policy — they are last-value channels, so a second write to the same
channel replaces the first outright instead of appending to it. -/
theorem c6_replace_not_append :
    (parApply (parApply (parInitState "cats") c6WriteFirst) c6WriteSecond).joke =
      some "second" ∧
    (parApply (parApply (parInitState "cats") c6WriteFirst) c6WriteSecond).joke ≠
      some ("first" ++ "second") := by
  exact ⟨rfl, by decide⟩

/- ===================================================================
   Streaming gateway events — part_005 handleMessage
   =================================================================== -/

def replaceFirstChar : List Char → Char → Char → List Char
  | [], _, _ => []
  | c :: cs, t, r => if c = t then r :: cs else c :: replaceFirstChar cs t r

/-- `nodeName.replace('_', ' ').toUpperCase()` from
`extractMessageContent` (JS `replace` with a string pattern substitutes
only the first occurrence). -/
def representativeOf (nodeName : String) : String :=
  String.mk ((replaceFirstChar nodeName.data '_' ' ').map Char.toUpper)

/-- One chunk yielded by `graph.stream(...)`: the node that completed and
the content the gateway extracts from its emitted message. -/
structure StreamStep where
  nodeName : String
  content : String
deriving DecidableEq, Repr

inductive GatewayEvent
  | response (threadId : String) (stepCount : Nat) (content : String) (representative : String)
  | completed (threadId : String) (totalSteps : Nat)
  | error (content : String) (details : Option String)
deriving DecidableEq, Repr

def GatewayEvent.isResponse : GatewayEvent → Bool
  | .response _ _ _ _ => true
  | _ => false

def GatewayEvent.isCompleted : GatewayEvent → Bool
  | .completed _ _ => true
  | _ => false

def GatewayEvent.isError : GatewayEvent → Bool
  | .error _ _ => true
  | _ => false

/-- The `for await` loop of part_005 `handleMessage`: one response event
per consumed stream step, incrementing `stepCount`; returns the emitted
events and the final counter. -/
def streamLoop (threadId : String) : Nat → List StreamStep → List GatewayEvent × Nat
  | stepCount, [] => ([], stepCount)
  | stepCount, st :: rest =>
      let n := stepCount + 1
      let (evs, total) := streamLoop threadId n rest
      (.response threadId n st.content (representativeOf st.nodeName) :: evs, total)

/-- part_005 `handleMessage`: an invalid message yields a single error
event; otherwise the per-step events are emitted in stream order and
followed by exactly one `completed` event carrying the final counter —
unless the stream throws after `steps` chunks were consumed (`failure`),
in which case the already-emitted step events are followed by exactly one
error event carrying content and details. -/
def handleMessage005 (p : ClientPayload) (threadId : String)
    (steps : List StreamStep) (failure : Option String) : List GatewayEvent :=
  match extractedMessage p with
  | none => [.error "Invalid or no message provided" none]
  | some m =>
      if m = "" then [.error "Invalid or no message provided" none]
      else
        let (evs, total) := streamLoop threadId 0 steps
        match failure with
        | none => evs ++ [.completed threadId total]
        | some err => evs ++ [.error "Failed to process message" (some err)]

/-- The claim's expected event sequence: one response event per executed
stage, in execution order, with consecutive step counts starting above
`k`. -/
def orderedResponses (threadId : String) : Nat → List StreamStep → List GatewayEvent
  | _, [] => []
  | k, st :: rest =>
      .response threadId (k + 1) st.content (representativeOf st.nodeName) ::
        orderedResponses threadId (k + 1) rest

/-- The step counts carried by the response events, in order. -/
def responseSteps : List GatewayEvent → List Nat
  | [] => []
  | .response _ n _ _ :: rest => n :: responseSteps rest
  | _ :: rest => responseSteps rest

theorem streamLoop_spec (threadId : String) :
    ∀ (steps : List StreamStep) (k : Nat),
      streamLoop threadId k steps = (orderedResponses threadId k steps, k + steps.length) := by
  intro steps
  induction steps with
  | nil => intro k; simp [streamLoop, orderedResponses]
  | cons st rest ih =>
      intro k
      simp [streamLoop, orderedResponses, ih (k + 1)]
      omega

theorem orderedResponses_steps (threadId : String) :
    ∀ (steps : List StreamStep) (k : Nat),
      responseSteps (orderedResponses threadId k steps) =
        List.range' (k + 1) steps.length := by
  intro steps
  induction steps with
  | nil => intro k; simp [orderedResponses, responseSteps, List.range']
  | cons st rest ih =>
      intro k
      simp [orderedResponses, responseSteps, ih (k + 1), List.range']

theorem orderedResponses_all_response (threadId : String) :
    ∀ (steps : List StreamStep) (k : Nat),
      ∀ e ∈ orderedResponses threadId k steps, e.isResponse = true := by
  intro steps
  induction steps with
  | nil => intro k e he; simp [orderedResponses] at he
  | cons st rest ih =>
      intro k e he
      rcases List.mem_cons.mp he with rfl | hm
      · rfl
      · exact ih (k + 1) e hm

theorem orderedResponses_length (threadId : String) :
    ∀ (steps : List StreamStep) (k : Nat),
      (orderedResponses threadId k steps).length = steps.length := by
  intro steps
  induction steps with
  | nil => intro k; rfl
  | cons st rest ih => intro k; simp [orderedResponses, ih (k + 1)]

/- ========== C7 ========== -/

/-- C7: for every run the streaming gateway drives, the emitted events
are exactly the per-stage response events in the order the stages
executed, with step counts taking the consecutive values 1..n; on success
they are followed by exactly one `completed` event whose `totalSteps`
equals the number n of per-stage events (and no error event); on failure
the per-stage events already emitted are followed by exactly one error
event carrying content and details (and no completed event). -/
theorem c7_stream_event_order (p : ClientPayload) (threadId : String)
    (steps : List StreamStep) (m : String)
    (hm : extractedMessage p = some m) (hne : m ≠ "") :
    handleMessage005 p threadId steps none =
      orderedResponses threadId 0 steps ++ [.completed threadId steps.length] ∧
    responseSteps (orderedResponses threadId 0 steps) = List.range' 1 steps.length ∧
    (orderedResponses threadId 0 steps).length = steps.length ∧
    (handleMessage005 p threadId steps none).countP GatewayEvent.isCompleted = 1 ∧
    (handleMessage005 p threadId steps none).countP GatewayEvent.isError = 0 ∧
    ∀ err : String,
      handleMessage005 p threadId steps (some err) =
        orderedResponses threadId 0 steps ++
          [.error "Failed to process message" (some err)] ∧
      (handleMessage005 p threadId steps (some err)).countP GatewayEvent.isError = 1 ∧
      (handleMessage005 p threadId steps (some err)).countP GatewayEvent.isCompleted = 0 := by
  have hloop := streamLoop_spec threadId steps 0
  have hall := orderedResponses_all_response threadId steps 0
  have hok : handleMessage005 p threadId steps none =
      orderedResponses threadId 0 steps ++ [.completed threadId steps.length] := by
    simp only [handleMessage005, hm, if_neg hne, hloop]
    rw [Nat.zero_add]
  have herr : ∀ err : String, handleMessage005 p threadId steps (some err) =
      orderedResponses threadId 0 steps ++
        [.error "Failed to process message" (some err)] := by
    intro err
    simp only [handleMessage005, hm, if_neg hne, hloop]
  have hnoC : (orderedResponses threadId 0 steps).countP GatewayEvent.isCompleted = 0 := by
    rw [List.countP_eq_zero]
    intro e he
    have := hall e he
    cases e <;> simp_all [GatewayEvent.isResponse, GatewayEvent.isCompleted]
  have hnoE : (orderedResponses threadId 0 steps).countP GatewayEvent.isError = 0 := by
    rw [List.countP_eq_zero]
    intro e he
    have := hall e he
    cases e <;> simp_all [GatewayEvent.isResponse, GatewayEvent.isError]
  refine ⟨hok, orderedResponses_steps threadId steps 0,
    orderedResponses_length threadId steps 0, ?_, ?_, ?_⟩
  · rw [hok, List.countP_append, hnoC]
    rfl
  · rw [hok, List.countP_append, hnoE]
    rfl
  · intro err
    refine ⟨herr err, ?_, ?_⟩
    · rw [herr err, List.countP_append, hnoE]
      rfl
    · rw [herr err, List.countP_append, hnoC]
      rfl

/-- C7 (witness): the theorem at a concrete payload and a concrete
two-step stream. -/
theorem c7_stream_event_order_witness :
    handleMessage005
        { dataMessage := none, message := some "hello", threadId := none, authorization := none }
        "thread-1"
        [{ nodeName := "initial_support", content := "hi" },
          { nodeName := "billing_support", content := "sure" }] none =
      orderedResponses "thread-1" 0
          [{ nodeName := "initial_support", content := "hi" },
            { nodeName := "billing_support", content := "sure" }] ++
        [.completed "thread-1" 2] :=
  (c7_stream_event_order
    { dataMessage := none, message := some "hello", threadId := none, authorization := none }
    "thread-1"
    [{ nodeName := "initial_support", content := "hi" },
      { nodeName := "billing_support", content := "sure" }]
    "hello" rfl (by decide)).1

/- ===================================================================
   Agent workflow — part_003 agent (toolNode, shouldContinue)
   =================================================================== -/

/-- One entry of an assistant message's `tool_calls` array.  JS numbers
are IEEE doubles; the properties under scrutiny here (counts, order, ids)
are independent of the numeric values, which are modelled by exact
rationals. -/
structure ToolCallRec where
  name : String
  argA : Rat
  argB : Rat
  id : String
deriving DecidableEq, Repr

inductive AgentMsg
  | human (content : String)
  | system (content : String)
  | ai (content : String) (toolCalls : List ToolCallRec)
  | toolResult (content : Rat) (toolCallId : String)
deriving DecidableEq, Repr

/-- `tools = [add, multiply, divide]`, keyed by name as in
`Object.fromEntries(tools.map(tool => [tool.name, tool]))`. -/
def toolList : List (String × (Rat → Rat → Rat)) :=
  [("add", fun a b => a + b), ("multiply", fun a b => a * b),
   ("divide", fun a b => a / b)]

def toolsByName (n : String) : Option (Rat → Rat → Rat) :=
  toolList.lookup n

/-- The `for (const toolCall of lastMessage.tool_calls)` loop: invoke the
looked-up tool and push a `ToolMessage` with the call's id; looking up an
unknown name yields `undefined`, whose `.invoke` throws (surfaced as the
name that failed). -/
def runToolCalls : List ToolCallRec → Except String (List AgentMsg)
  | [] => .ok []
  | tc :: rest =>
      match toolsByName tc.name with
      | none => .error tc.name
      | some f =>
          match runToolCalls rest with
          | .ok ms => .ok (.toolResult (f tc.argA tc.argB) tc.id :: ms)
          | .error e => .error e

/-- `lastMessage instanceof AIMessage && lastMessage?.tool_calls?.length`. -/
def lastIsActiveAi (msgs : List AgentMsg) : Bool :=
  match msgs.getLast? with
  | some (.ai _ calls) => !calls.isEmpty
  | _ => false

/-- The agent's `toolNode`. -/
def toolNode (msgs : List AgentMsg) : Except String (List AgentMsg) :=
  match msgs.getLast? with
  | some (.ai _ calls) => if calls.isEmpty then .ok [] else runToolCalls calls
  | _ => .ok []

/-- The agent's conditional router `shouldContinue`. -/
def shouldContinue (msgs : List AgentMsg) : String :=
  match msgs.getLast? with
  | some (.ai _ calls) => if calls.isEmpty then "__end__" else "Action"
  | _ => "__end__"

def AgentMsg.toolCallIdOf : AgentMsg → Option String
  | .toolResult _ i => some i
  | _ => none

def AgentMsg.isToolResult : AgentMsg → Bool
  | .toolResult _ _ => true
  | _ => false

theorem runToolCalls_spec :
    ∀ calls : List ToolCallRec,
      (∀ tc ∈ calls, (toolsByName tc.name).isSome = true) →
      ∃ results, runToolCalls calls = .ok results ∧
        results.map AgentMsg.toolCallIdOf = calls.map (fun tc => some tc.id) ∧
        ∀ r ∈ results, r.isToolResult = true := by
  intro calls
  induction calls with
  | nil => intro _; exact ⟨[], rfl, rfl, by simp⟩
  | cons tc rest ih =>
      intro hknown
      obtain ⟨ms, hok, hmap, hall⟩ := ih fun tc' htc' =>
        hknown tc' (List.mem_cons_of_mem tc htc')
      have h0 := hknown tc (List.mem_cons_self tc rest)
      rcases hf : toolsByName tc.name with _ | f
      · rw [hf] at h0
        exact absurd h0 (by simp)
      · refine ⟨.toolResult (f tc.argA tc.argB) tc.id :: ms, ?_, ?_, ?_⟩
        · simp only [runToolCalls, hf, hok]
        · simp [AgentMsg.toolCallIdOf, hmap]
        · intro r hr
          rcases List.mem_cons.mp hr with rfl | hm
          · rfl
          · exact hall r hm

/- ========== C8 ========== -/

/-- C8 (amended): when the last message is an assistant message with a
non-empty list of tool calls each naming one of the defined tools, the
tool node appends exactly one tool-result message per tool call, in the
same order, each with `toolCallId` equal to the id of the corresponding
call in that assistant message, and the router returns "Action"; a call
naming an unknown tool instead makes the node throw (no messages
appended); when the last message is not such an assistant message the
tool node appends no messages and the router returns the terminal
marker. -/
theorem c8_toolnode_results (msgs : List AgentMsg) :
    (∀ (c : String) (calls : List ToolCallRec),
      msgs.getLast? = some (.ai c calls) → calls ≠ [] →
      (∀ tc ∈ calls, (toolsByName tc.name).isSome = true) →
      ∃ results, toolNode msgs = .ok results ∧
        results.map AgentMsg.toolCallIdOf = calls.map (fun tc => some tc.id) ∧
        (∀ r ∈ results, r.isToolResult = true) ∧
        shouldContinue msgs = "Action") ∧
    (lastIsActiveAi msgs = false →
      toolNode msgs = .ok [] ∧ shouldContinue msgs = "__end__") := by
  constructor
  · intro c calls hlast hne hknown
    have hemp : calls.isEmpty = false := by
      cases calls
      · exact absurd rfl hne
      · rfl
    obtain ⟨results, hok, hmap, hall⟩ := runToolCalls_spec calls hknown
    refine ⟨results, ?_, hmap, hall, ?_⟩
    · simp only [toolNode, hlast, hemp]
      exact hok
    · simp only [shouldContinue, hlast, hemp]
      rfl
  · intro h
    rcases hl : msgs.getLast? with _ | msg
    · constructor
      · simp only [toolNode, hl]
      · simp only [shouldContinue, hl]
    · cases msg with
      | ai c calls =>
          have hemp : calls.isEmpty = true := by
            simp only [lastIsActiveAi, hl] at h
            simpa using h
          constructor
          · simp only [toolNode, hl, hemp, if_pos]
          · simp only [shouldContinue, hl, hemp, if_pos]
      | human c =>
          exact ⟨by simp only [toolNode, hl], by simp only [shouldContinue, hl]⟩
      | system c =>
          exact ⟨by simp only [toolNode, hl], by simp only [shouldContinue, hl]⟩
      | toolResult c i =>
          exact ⟨by simp only [toolNode, hl], by simp only [shouldContinue, hl]⟩

/-- C8 (witness): the amended theorem at a concrete two-call assistant
message (`add(3,4)` then `multiply(2,5)`). -/
theorem c8_toolnode_results_witness :
    ∃ results, toolNode
        [.human "compute", .ai ""
          [{ name := "add", argA := 3, argB := 4, id := "call-a" },
            { name := "multiply", argA := 2, argB := 5, id := "call-b" }]] =
        .ok results ∧
      results.map AgentMsg.toolCallIdOf =
        [some "call-a", some "call-b"] ∧
      (∀ r ∈ results, r.isToolResult = true) ∧
      shouldContinue
        [.human "compute", .ai ""
          [{ name := "add", argA := 3, argB := 4, id := "call-a" },
            { name := "multiply", argA := 2, argB := 5, id := "call-b" }]] = "Action" :=
  (c8_toolnode_results
    [.human "compute", .ai ""
      [{ name := "add", argA := 3, argB := 4, id := "call-a" },
        { name := "multiply", argA := 2, argB := 5, id := "call-b" }]]).1
    ""
    [{ name := "add", argA := 3, argB := 4, id := "call-a" },
      { name := "multiply", argA := 2, argB := 5, id := "call-b" }]
    rfl (by decide) (by decide)

def c8BadCall : ToolCallRec := { name := "pow", argA := 2, argB := 3, id := "call-1" }

/-- C8 (counterexample): a message list whose last element is an
assistant message with one tool call naming the undefined tool "pow":
`toolsByName` yields `undefined` and the node throws instead of appending
one tool-result message per call, so the claim's universal statement
fails at this input. -/
theorem c8_unknown_tool_counterexample :
    toolNode [.ai "" [c8BadCall]] = .error "pow" ∧
    ∀ results : List AgentMsg, toolNode [.ai "" [c8BadCall]] ≠ .ok results := by
  refine ⟨rfl, ?_⟩
  intro results h
  rw [show toolNode [.ai "" [c8BadCall]] = .error "pow" from rfl] at h
  exact Except.noConfusion h

/- ===================================================================
   Merge policies — part_002 GraphState, part_003 completedSections
   =================================================================== -/

/-- The append reducer declared on the rag-agent `GraphState.messages`
channel (part_002) and on `completedSections` (part_003):
`(x, y) => x.concat(y)`. -/
def appendReducer {α : Type} (x y : List α) : List α := x ++ y

/-- A plain (reducer-less) channel: the incoming write replaces the
current value. -/
def replaceReducer {α : Type} (current incoming : α) : α :=
  match current with
  | _ => incoming

/- ========== C9 ========== -/

/-- C9: merging an empty delta with the append reducer leaves the value
unchanged, and applying the replace policy twice with the same value
equals applying it once — both for the generic reducers and for an actual
last-value workflow channel. -/
theorem c9_merge_idempotence :
    (∀ x : List String, appendReducer x [] = x) ∧
    (∀ (s v : String), replaceReducer (replaceReducer s v) v = replaceReducer s v) ∧
    (∀ (s : ParState) (v : String),
      parApply (parApply s { joke := some v }) { joke := some v } =
        parApply s { joke := some v }) ∧
    (∀ (s : SupportState), applyDelta s { } = s) := by
  refine ⟨fun x => List.append_nil x, fun s v => rfl, fun s v => rfl, fun s => ?_⟩
  simp [applyDelta]
